import Mathlib

/-!
Verification development for the gemini-cli-go gateway.

The Go source is shallowly embedded: Go strings are modelled as `String`
(with byte-level index arithmetic carried out on the underlying character
list, which coincides with Go's byte indexing on the ASCII inputs that
appear in the claims), dynamically typed `map[string]interface{}` /
`interface{}` values produced by `encoding/json` are modelled by the
inductive `Json` (Go maps become association lists accessed through
`mapGet`/`mapSet`, which reproduces Go map lookup/update semantics), and
JSON numbers are modelled as rationals (exact for every integer value the
code manipulates).
-/

namespace GeminiProxy

/-- Model of a decoded JSON value as produced by Go's `encoding/json` into
`interface{}`: `nil`, `bool`, `float64`, `string`, `[]interface{}` or
`map[string]interface{}`. -/
inductive Json where
  | null : Json
  | bool (b : Bool) : Json
  | num (q : Rat) : Json
  | str (s : String) : Json
  | arr (elems : List Json) : Json
  | obj (fields : List (String × Json)) : Json

/-- Go map lookup `m[k]` (second result of the comma-ok form): first binding
of the key in the association list. -/
def mapGet : List (String × Json) → String → Option Json
  | [], _ => none
  | (k, v) :: rest, key => if k = key then some v else mapGet rest key

/-- Go map update `m[k] = v`: replace the existing binding or append one. -/
def mapSet : List (String × Json) → String → Json → List (String × Json)
  | [], key, val => [(key, val)]
  | (k, v) :: rest, key, val =>
    if k = key then (k, val) :: rest else (k, v) :: mapSet rest key val

/-- `strings.HasPrefix s pre`. -/
def goStartsWith (s pre : String) : Bool := pre.data.isPrefixOf s.data

/-- `strings.HasSuffix s suf`. -/
def goEndsWith (s suf : String) : Bool := suf.data.isSuffixOf s.data

/-- Occurrence of `needle` as a contiguous sublist of the second argument. -/
def containsSubL (needle : List Char) : List Char → Bool
  | [] => needle.isEmpty
  | c :: rest => needle.isPrefixOf (c :: rest) || containsSubL needle rest

/-- `strings.Contains s sub`. -/
def goContains (s sub : String) : Bool := containsSubL sub.data s.data

/-- Go slice `s[a:b]` on the character list. -/
def sliceL (l : List Char) (a b : Nat) : List Char := (l.drop a).take (b - a)

/-- Go slice `s[:n]` as a string. -/
def takeStr (s : String) (n : Nat) : String := String.mk (s.data.take n)

/-! ## pkg/config/config.go -/

/-- `config.Model`: a Gemini model catalog entry. -/
structure Model where
  name : String
  version : String
  displayName : String
  description : String
  inputTokenLimit : Int
  outputTokenLimit : Int
  supportedGenerationMethods : List String
  temperature : Rat
  maxTemperature : Rat
  topP : Rat
  topK : Int
deriving DecidableEq

/-- `config.contains`: membership of a string in a slice. -/
def containsStr (slice : List String) (item : String) : Bool := slice.contains item

/-- `config.getDefaultSafetySettings`: the fixed ten-category BLOCK_NONE
table.  The identical literal appears both in pkg/config/config.go and in
pkg/transformers/openai.go (`getDefaultSafetySettings` in each file). -/
def getDefaultSafetySettings : Json :=
  Json.arr
    [ Json.obj [("category", Json.str "HARM_CATEGORY_HARASSMENT"), ("threshold", Json.str "BLOCK_NONE")]
    , Json.obj [("category", Json.str "HARM_CATEGORY_HATE_SPEECH"), ("threshold", Json.str "BLOCK_NONE")]
    , Json.obj [("category", Json.str "HARM_CATEGORY_SEXUALLY_EXPLICIT"), ("threshold", Json.str "BLOCK_NONE")]
    , Json.obj [("category", Json.str "HARM_CATEGORY_DANGEROUS_CONTENT"), ("threshold", Json.str "BLOCK_NONE")]
    , Json.obj [("category", Json.str "HARM_CATEGORY_CIVIC_INTEGRITY"), ("threshold", Json.str "BLOCK_NONE")]
    , Json.obj [("category", Json.str "HARM_CATEGORY_IMAGE_DANGEROUS_CONTENT"), ("threshold", Json.str "BLOCK_NONE")]
    , Json.obj [("category", Json.str "HARM_CATEGORY_IMAGE_HARASSMENT"), ("threshold", Json.str "BLOCK_NONE")]
    , Json.obj [("category", Json.str "HARM_CATEGORY_IMAGE_HATE"), ("threshold", Json.str "BLOCK_NONE")]
    , Json.obj [("category", Json.str "HARM_CATEGORY_IMAGE_SEXUALLY_EXPLICIT"), ("threshold", Json.str "BLOCK_NONE")]
    , Json.obj [("category", Json.str "HARM_CATEGORY_UNSPECIFIED"), ("threshold", Json.str "BLOCK_NONE")]
    ]

/-- `config.getBaseModels`: the fixed catalog of eight base models. -/
def getBaseModels : List Model :=
  [ { name := "models/gemini-2.5-pro-preview-03-25", version := "001"
    , displayName := "Gemini 2.5 Pro Preview 03-25"
    , description := "Preview version of Gemini 2.5 Pro from May 6th"
    , inputTokenLimit := 1048576, outputTokenLimit := 65535
    , supportedGenerationMethods := ["generateContent", "streamGenerateContent"]
    , temperature := 1, maxTemperature := 2, topP := 95/100, topK := 64 }
  , { name := "models/gemini-2.5-pro-preview-05-06", version := "001"
    , displayName := "Gemini 2.5 Pro Preview 05-06"
    , description := "Preview version of Gemini 2.5 Pro from May 6th"
    , inputTokenLimit := 1048576, outputTokenLimit := 65535
    , supportedGenerationMethods := ["generateContent", "streamGenerateContent"]
    , temperature := 1, maxTemperature := 2, topP := 95/100, topK := 64 }
  , { name := "models/gemini-2.5-pro-preview-06-05", version := "001"
    , displayName := "Gemini 2.5 Pro Preview 06-05"
    , description := "Preview version of Gemini 2.5 Pro from June 5th"
    , inputTokenLimit := 1048576, outputTokenLimit := 65535
    , supportedGenerationMethods := ["generateContent", "streamGenerateContent"]
    , temperature := 1, maxTemperature := 2, topP := 95/100, topK := 64 }
  , { name := "models/gemini-2.5-pro", version := "001"
    , displayName := "Gemini 2.5 Pro"
    , description := "Advanced multimodal model with enhanced capabilities"
    , inputTokenLimit := 1048576, outputTokenLimit := 65535
    , supportedGenerationMethods := ["generateContent", "streamGenerateContent"]
    , temperature := 1, maxTemperature := 2, topP := 95/100, topK := 64 }
  , { name := "models/gemini-2.5-flash-preview-05-20", version := "001"
    , displayName := "Gemini 2.5 Flash Preview 05-20"
    , description := "Preview version of Gemini 2.5 Flash from May 20th"
    , inputTokenLimit := 1048576, outputTokenLimit := 65535
    , supportedGenerationMethods := ["generateContent", "streamGenerateContent"]
    , temperature := 1, maxTemperature := 2, topP := 95/100, topK := 64 }
  , { name := "models/gemini-2.5-flash-preview-04-17", version := "001"
    , displayName := "Gemini 2.5 Flash Preview 04-17"
    , description := "Preview version of Gemini 2.5 Flash from April 17th"
    , inputTokenLimit := 1048576, outputTokenLimit := 65535
    , supportedGenerationMethods := ["generateContent", "streamGenerateContent"]
    , temperature := 1, maxTemperature := 2, topP := 95/100, topK := 64 }
  , { name := "models/gemini-2.5-flash", version := "001"
    , displayName := "Gemini 2.5 Flash"
    , description := "Fast and efficient multimodal model with latest improvements"
    , inputTokenLimit := 1048576, outputTokenLimit := 65535
    , supportedGenerationMethods := ["generateContent", "streamGenerateContent"]
    , temperature := 1, maxTemperature := 2, topP := 95/100, topK := 64 }
  , { name := "models/gemini-2.5-flash-image-preview", version := "001"
    , displayName := "Gemini 2.5 Flash Image Preview"
    , description := "Gemini 2.5 Flash Image Preview"
    , inputTokenLimit := 32768, outputTokenLimit := 32768
    , supportedGenerationMethods := ["generateContent", "streamGenerateContent"]
    , temperature := 1, maxTemperature := 2, topP := 95/100, topK := 64 }
  ]

/-- Concatenation of the per-element lists (the accumulation pattern of the
Go `for ... append` loops that emit several variants per base model). -/
def concatMap (f : α → List β) : List α → List β
  | [] => []
  | x :: xs => f x ++ concatMap f xs

/-- `config.generateSupportedModels`: base models, then `-search` variants,
then `-nothinking`/`-maxthinking` variants, then the combined
`-search-nothinking`/`-search-maxthinking` variants, in the order of the
four Go loops. -/
def generateSupportedModels : List Model :=
  let baseModels := getBaseModels
  let searchVariants := concatMap (fun m =>
    if !goContains m.name "gemini-2.5-flash-image" &&
        containsStr m.supportedGenerationMethods "generateContent" then
      [{ m with
          name := m.name ++ "-search",
          displayName := m.displayName ++ " with Google Search",
          description := m.description ++ " (includes Google Search grounding)" }]
    else []) baseModels
  let thinkingVariants := concatMap (fun m =>
    if !goContains m.name "gemini-2.5-flash-image" &&
        containsStr m.supportedGenerationMethods "generateContent" &&
        (goContains m.name "gemini-2.5-flash" || goContains m.name "gemini-2.5-pro") then
      [{ m with
          name := m.name ++ "-nothinking",
          displayName := m.displayName ++ " (No Thinking)",
          description := m.description ++ " (thinking disabled)" },
       { m with
          name := m.name ++ "-maxthinking",
          displayName := m.displayName ++ " (Max Thinking)",
          description := m.description ++ " (maximum thinking budget)" }]
    else []) baseModels
  let combinedVariants := concatMap (fun m =>
    if containsStr m.supportedGenerationMethods "generateContent" &&
        (goContains m.name "gemini-2.5-flash" || goContains m.name "gemini-2.5-pro") then
      [{ m with
          name := m.name ++ "-search-nothinking",
          displayName := m.displayName ++ " with Google Search (No Thinking)",
          description := m.description ++ " (includes Google Search grounding, thinking disabled)" },
       { m with
          name := m.name ++ "-search-maxthinking",
          displayName := m.displayName ++ " with Google Search (Max Thinking)",
          description := m.description ++ " (includes Google Search grounding, maximum thinking budget)" }]
    else []) baseModels
  baseModels ++ searchVariants ++ thinkingVariants ++ combinedVariants

/-- `config.GetBaseModelName`: strip the first matching suffix among
`-maxthinking`, `-nothinking`, `-search` (in that order); at most one
suffix is removed. -/
def GetBaseModelName (modelName : String) : String :=
  if goEndsWith modelName "-maxthinking" then
    takeStr modelName (modelName.data.length - 12)
  else if goEndsWith modelName "-nothinking" then
    takeStr modelName (modelName.data.length - 11)
  else if goEndsWith modelName "-search" then
    takeStr modelName (modelName.data.length - 7)
  else modelName

/-- `config.IsSearchModel`. -/
def IsSearchModel (modelName : String) : Bool := goContains modelName "-search"

/-- `config.IsNothinkingModel`. -/
def IsNothinkingModel (modelName : String) : Bool := goContains modelName "-nothinking"

/-- `config.IsMaxthinkingModel`. -/
def IsMaxthinkingModel (modelName : String) : Bool := goContains modelName "-maxthinking"

/-- `config.GetThinkingBudget`. -/
def GetThinkingBudget (modelName : String) : Int :=
  let baseModel := GetBaseModelName modelName
  if IsNothinkingModel modelName then
    if goContains baseModel "gemini-2.5-flash" then 0
    else if goContains baseModel "gemini-2.5-pro" then 128
    else -1
  else if IsMaxthinkingModel modelName then
    if goContains baseModel "gemini-2.5-flash" then 24576
    else if goContains baseModel "gemini-2.5-pro" then 32768
    else -1
  else -1

/-- `config.ShouldIncludeThoughts`. -/
def ShouldIncludeThoughts (modelName : String) : Bool :=
  if IsNothinkingModel modelName then
    goContains (GetBaseModelName modelName) "gemini-2.5-pro"
  else true

/-! ## pkg/transformers/openai.go: content decomposition -/

/-- The double-quote character. -/
def dquoteChar : Char := Char.ofNat 34

/-- The single-quote character. -/
def squoteChar : Char := Char.ofNat 39

/-- Characters recognised by Go's `unicode.IsSpace` for the Latin-1 range
(what `strings.TrimSpace` strips). -/
def isGoSpace (c : Char) : Bool :=
  c = ' ' || c = '\t' || c = '\n' || c = Char.ofNat 11 || c = Char.ofNat 12 ||
  c = '\r' || c = Char.ofNat 133 || c = Char.ofNat 160

/-- Drop leading characters satisfying `p` (`strings.TrimLeft`-style). -/
def trimLeftBy (p : Char → Bool) : List Char → List Char
  | [] => []
  | c :: rest => if p c then trimLeftBy p rest else c :: rest

/-- Drop leading and trailing characters satisfying `p`. -/
def trimBy (p : Char → Bool) (l : List Char) : List Char :=
  (trimLeftBy p (trimLeftBy p l).reverse).reverse

/-- `strings.TrimSpace`. -/
def trimSpaceL (l : List Char) : List Char := trimBy isGoSpace l

/-- `strings.Trim l cutset`: trim characters of the cutset on both ends. -/
def trimSetL (cutset : List Char) (l : List Char) : List Char :=
  trimBy (fun c => cutset.contains c) l

/-- First index `j ≥ i` with `l[j] = c` (helper for the regexp scan). -/
def findFrom (l : List Char) (c : Char) (i : Nat) : Option Nat :=
  match (l.drop i).findIdx? (fun d => d = c) with
  | some d => some (i + d)
  | none => none

/-- A match of the markdown-image pattern `!\[[^\]]*\]\(([^)]+)\)` used by
`processTextContent`: overall range `[mstart, mend)` and capture-group
(URL) range `[ustart, uend)`, as in `FindAllStringSubmatchIndex`. -/
structure MdMatch where
  mstart : Nat
  mend : Nat
  ustart : Nat
  uend : Nat
deriving DecidableEq

/-- Attempt to match the markdown-image pattern at position `i`.  The RE2
pattern is deterministic here because each character class excludes its
closing delimiter: `[^\]]*` runs to the first `]`, which must be followed
by `(`, and `[^)]+` runs (at least one character) to the first `)`. -/
def matchAt (l : List Char) (i : Nat) : Option MdMatch :=
  if l.get? i = some '!' ∧ l.get? (i + 1) = some '[' then
    match findFrom l ']' (i + 2) with
    | none => none
    | some j =>
      if l.get? (j + 1) = some '(' then
        match findFrom l ')' (j + 2) with
        | none => none
        | some k => if j + 2 < k then some ⟨i, k + 1, j + 2, k⟩ else none
      else none
  else none

/-- Leftmost, non-overlapping scan for all pattern matches, continuing
after the end of each match (`FindAllStringSubmatchIndex(text, -1)`).  The
fuel argument only bounds the recursion; every step advances the position,
so `l.length + 1` units never run out. -/
def scanMatches (l : List Char) : Nat → Nat → List MdMatch
  | _, 0 => []
  | i, fuel + 1 =>
    if l.length ≤ i then []
    else
      match matchAt l i with
      | some m => m :: scanMatches l m.mend fuel
      | none => scanMatches l (i + 1) fuel

/-- All matches of the markdown-image pattern in `l`. -/
def findMatches (l : List Char) : List MdMatch := scanMatches l 0 (l.length + 1)

/-- The URL cleanup applied to a capture group in `processTextContent`:
`TrimSpace`, then `Trim "\"'"`, then `Trim "'"`. -/
def cleanUrl (l : List Char) (m : MdMatch) : List Char :=
  trimSetL [squoteChar] (trimSetL [dquoteChar, squoteChar] (trimSpaceL (sliceL l m.ustart m.uend)))

/-- One character of the standard base64 alphabet. -/
def isB64Char (c : Char) : Bool :=
  ('A' ≤ c && c ≤ 'Z') || ('a' ≤ c && c ≤ 'z') || ('0' ≤ c && c ≤ '9') || c = '+' || c = '/'

/-- Validity of the newline-filtered input for `base64.StdEncoding.DecodeString`:
four-character quanta of alphabet characters, with `=` padding allowed only
in the last one or two positions of the final quantum. -/
def b64Quanta : List Char → Bool
  | [] => true
  | a :: b :: c :: d :: rest =>
    if isB64Char a && isB64Char b then
      if isB64Char c && isB64Char d then b64Quanta rest
      else if isB64Char c && d = '=' then rest.isEmpty
      else if c = '=' && d = '=' then rest.isEmpty
      else false
    else false
  | _ => false

/-- Whether `base64.StdEncoding.DecodeString` succeeds on `s` (the decoder
skips `\r` and `\n` anywhere in the input). -/
def base64Valid (s : String) : Bool :=
  b64Quanta (s.data.filter (fun c => c ≠ '\n' && c ≠ '\r'))

/-- `strings.SplitN(l, sep, 2)` when the separator is a single character:
`none` when the separator does not occur (one part), else the text before
and after its first occurrence. -/
def splitOnceL (l : List Char) (sep : Char) : Option (List Char × List Char) :=
  let before := l.takeWhile (fun c => c ≠ sep)
  let rest := l.dropWhile (fun c => c ≠ sep)
  match rest with
  | [] => none
  | _ :: after => some (before, after)

/-- `transformers.processImageURL`: turn a data-URI into an inlineData
part; `none` when the URL is not a data URI, has no comma, or its payload
is not valid base64. -/
def processImageURL (url : String) : Option Json :=
  if !goStartsWith url "data:" then none
  else
    match splitOnceL url.data ',' with
    | none => none
    | some (header, payload) =>
      let mimeType :=
        if containsSubL [':'] header then
          match splitOnceL header ':' with
          | some (_, afterColon) =>
            if containsSubL [';'] afterColon then
              String.mk (afterColon.takeWhile (fun c => c ≠ ';'))
            else String.mk afterColon
          | none => "image/png"
        else "image/png"
      if base64Valid (String.mk payload) then
        some (Json.obj [("inlineData", Json.obj
          [("mimeType", Json.str mimeType), ("data", Json.str (String.mk payload))])])
      else none

/-- The part emitted for one markdown-image match: the inlineData part when
the cleaned URL processes successfully, otherwise the matched text kept as
a literal text part. -/
def matchPart (l : List Char) (m : MdMatch) : Json :=
  match processImageURL (String.mk (cleanUrl l m)) with
  | some p => p
  | none => Json.obj [("text", Json.str (String.mk (sliceL l m.mstart m.mend)))]

/-- The loop body of `processTextContent`: interleave the text between
matches (skipping empty segments) with the per-match parts, then append
the text after the last match. -/
def buildParts (l : List Char) : Nat → List MdMatch → List Json
  | lastIdx, [] =>
    if lastIdx < l.length then
      let rem := sliceL l lastIdx l.length
      if rem.isEmpty then [] else [Json.obj [("text", Json.str (String.mk rem))]]
    else []
  | lastIdx, m :: ms =>
    let before :=
      if lastIdx < m.mstart then
        let b := sliceL l lastIdx m.mstart
        if b.isEmpty then [] else [Json.obj [("text", Json.str (String.mk b))]]
      else []
    before ++ matchPart l m :: buildParts l m.mend ms

/-- `transformers.processTextContent`. -/
def processTextContent (s : String) : List Json :=
  if s = "" then [Json.obj [("text", Json.str "")]]
  else
    let l := s.data
    let ms := findMatches l
    if ms.isEmpty then [Json.obj [("text", Json.str s)]]
    else
      let parts := buildParts l 0 ms
      if parts.isEmpty then [Json.obj [("text", Json.str s)]] else parts

/-- The parts contributed by one entry of an array content
(`processArrayContent` loop body); unrecognised entries contribute
nothing. -/
def itemParts (item : Json) : List Json :=
  match item with
  | Json.obj fields =>
    match mapGet fields "type" with
    | some (Json.str "text") =>
      match mapGet fields "text" with
      | some (Json.str t) => processTextContent t
      | _ => []
    | some (Json.str "image_url") =>
      match mapGet fields "image_url" with
      | some (Json.obj iu) =>
        match mapGet iu "url" with
        | some (Json.str u) =>
          match processImageURL u with
          | some p => [p]
          | none => []
        | _ => []
      | _ => []
    | _ => []
  | _ => []

/-- `transformers.processArrayContent`. -/
def processArrayContent (contentArray : List Json) : List Json :=
  let parts := concatMap itemParts contentArray
  if parts.isEmpty then [Json.obj [("text", Json.str "")]] else parts

/-- `transformers.processContent`: a JSON string or array of parts is
accepted; any other decoded content value is an error. -/
def processContent (content : Json) : Except String (List Json) :=
  match content with
  | Json.str s => Except.ok (processTextContent s)
  | Json.arr items => Except.ok (processArrayContent items)
  | _ => Except.error "unsupported content type"

/-! ## pkg/transformers/openai.go: request translation -/

/-- The Go value held by the `Stop interface{}` field of
`OpenAIChatCompletionRequest`.  The type switch in `OpenAIRequestToGemini`
handles the Go types `string` and `[]string`; `encoding/json` decodes a
JSON string into `string` and a JSON array into `[]interface{}` (never
`[]string`), so binding a request maps a JSON string to `str` and every
other JSON value to `other`. -/
inductive GoStop where
  | str (s : String)
  | strSlice (l : List String)
  | other (j : Json)

/-- The `Stop` value produced by `ShouldBindJSON` for a decoded JSON
`stop` field. -/
def decodeStop : Json → GoStop
  | Json.str s => GoStop.str s
  | j => GoStop.other j

/-- `models.OpenAIChatMessage` after JSON binding: the `Content` field is
an `interface{}` holding the decoded JSON value. -/
structure OpenAIMessage where
  role : String
  content : Json

/-- `models.OpenAIChatCompletionRequest` after JSON binding.  Pointer
fields are `Option`; numeric fields are exact rationals. -/
structure OpenAIRequest where
  model : String
  messages : List OpenAIMessage
  stream : Bool
  temperature : Option Rat
  topP : Option Rat
  maxTokens : Option Int
  stop : Option GoStop
  frequencyPenalty : Option Rat
  presencePenalty : Option Rat
  n : Option Int
  seed : Option Int
  responseFormat : Option (List (String × Json))

/-- The message loop of `OpenAIRequestToGemini`: map roles
(`assistant` to `model`, `system` to `user`) and decompose each content;
the first content error aborts the translation. -/
def buildContents : List OpenAIMessage → Except String (List Json)
  | [] => Except.ok []
  | msg :: rest =>
    let role :=
      if msg.role = "assistant" then "model"
      else if msg.role = "system" then "user"
      else msg.role
    match processContent msg.content with
    | Except.error e => Except.error e
    | Except.ok parts =>
      match buildContents rest with
      | Except.error e => Except.error e
      | Except.ok tail =>
        Except.ok (Json.obj [("role", Json.str role), ("parts", Json.arr parts)] :: tail)

/-- One conditional assignment of the generation-parameter mapping:
`if field != nil { generationConfig[k] = v }`. -/
def addOpt (gc : List (String × Json)) (k : String) : Option Json → List (String × Json)
  | some v => mapSet gc k v
  | none => gc

/-- The `stopSequences` value written by the `stop` type switch of
`OpenAIRequestToGemini`.  The switch handles the Go types `string` and
`[]string`; any other dynamic type (in particular the `[]interface{}`
produced for a JSON array) falls through and writes nothing. -/
def stopSeqValue : Option GoStop → Option Json
  | some (GoStop.str s) => some (Json.arr [Json.str s])
  | some (GoStop.strSlice l) => some (Json.arr (l.map Json.str))
  | some (GoStop.other _) => none
  | none => none

/-- The `responseMimeType` value written for a `response_format` whose
`type` entry is the string `json_object`. -/
def respMimeValue : Option (List (String × Json)) → Option Json
  | some rf =>
    match mapGet rf "type" with
    | some (Json.str "json_object") => some (Json.str "application/json")
    | _ => none
  | none => none

/-- The generation-parameter mapping of `OpenAIRequestToGemini`: each
present field is written to the `generationConfig` map, in source order. -/
def buildGenerationConfig (req : OpenAIRequest) : List (String × Json) :=
  addOpt (addOpt (addOpt (addOpt (addOpt (addOpt (addOpt (addOpt (addOpt []
    "temperature" (req.temperature.map Json.num))
    "topP" (req.topP.map Json.num))
    "maxOutputTokens" (req.maxTokens.map (fun t => Json.num (t : Rat))))
    "stopSequences" (stopSeqValue req.stop))
    "frequencyPenalty" (req.frequencyPenalty.map Json.num))
    "presencePenalty" (req.presencePenalty.map Json.num))
    "candidateCount" (req.n.map (fun t => Json.num (t : Rat))))
    "seed" (req.seed.map (fun t => Json.num (t : Rat))))
    "responseMimeType" (respMimeValue req.responseFormat)

/-- `transformers.OpenAIRequestToGemini`: the full request payload map.
In Go the thinking block mutates the `generationConfig` map already
stored in the payload; the final map contents are computed here before
assembling the payload, which yields the same payload. -/
def OpenAIRequestToGemini (req : OpenAIRequest) : Except String (List (String × Json)) :=
  match buildContents req.messages with
  | Except.error e => Except.error ("failed to process content: " ++ e)
  | Except.ok contents =>
    let gc := buildGenerationConfig req
    let gcFinal :=
      if !goContains req.model "gemini-2.5-flash-image" then
        let thinkingBudget := GetThinkingBudget req.model
        if thinkingBudget ≠ -1 then
          let tc :=
            match mapGet gc "thinkingConfig" with
            | some (Json.obj t) => t
            | _ => []
          let tc := mapSet tc "thinkingBudget" (Json.num (thinkingBudget : Rat))
          let tc := mapSet tc "includeThoughts" (Json.bool (ShouldIncludeThoughts req.model))
          mapSet gc "thinkingConfig" (Json.obj tc)
        else gc
      else gc
    let payload : List (String × Json) :=
      [ ("contents", Json.arr contents)
      , ("generationConfig", Json.obj gcFinal)
      , ("safetySettings", getDefaultSafetySettings)
      , ("model", Json.str (GetBaseModelName req.model)) ]
    let payload :=
      if IsSearchModel req.model then
        mapSet payload "tools" (Json.arr [Json.obj [("googleSearch", Json.obj [])]])
      else payload
    Except.ok payload

/-- `transformers.mapFinishReason`: the `interface{}` argument is a map
value, `none` standing for an absent key (a nil interface, which fails
the string type assertion). -/
def mapFinishReason (reason : Option Json) : Option String :=
  match reason with
  | some (Json.str s) =>
    if s = "STOP" then some "stop"
    else if s = "MAX_TOKENS" then some "length"
    else if s = "SAFETY" ∨ s = "RECITATION" then some "content_filter"
    else none
  | _ => none

/-! ## pkg/google (client): payload builders and streaming relay -/

/-- Whether a dynamic value has the Go type `[]map[string]interface{}`
(the type assertion applied to the `safetySettings` entry in
`BuildGeminiPayloadFromOpenAI`): an array value all of whose elements are
objects. -/
def isSliceOfMaps : Json → Bool
  | Json.arr l => l.all (fun j => match j with | Json.obj _ => true | _ => false)
  | _ => false

/-- The outgoing `{model, request}` pair (the part of the remote payload
that `SendGeminiRequest` forwards verbatim).  `model` is `none` when the
builder read a missing key (a nil interface). -/
structure GeminiPayload where
  model : Option Json
  request : List (String × Json)

/-- The key/value pair contributed to `requestData` for one key of the
OpenAI-built payload; `BuildGeminiPayloadFromOpenAI` drops nil values, so
a missing key contributes nothing. -/
def optField (p : List (String × Json)) (k : String) : List (String × Json) :=
  match mapGet p k with
  | some v => [(k, v)]
  | none => []

/-- `google.Client.BuildGeminiPayloadFromOpenAI`: wrap the transformed
payload, keeping a caller-set `safetySettings` only when it passes the
`[]map[string]interface{}` type assertion, and defaulting it to the
config table otherwise. -/
def BuildGeminiPayloadFromOpenAI (openaiPayload : List (String × Json)) : GeminiPayload :=
  let safetySettings :=
    match mapGet openaiPayload "safetySettings" with
    | some ss => if isSliceOfMaps ss then ss else getDefaultSafetySettings
    | none => getDefaultSafetySettings
  let request :=
    optField openaiPayload "contents" ++
    (optField openaiPayload "systemInstruction" ++
    (optField openaiPayload "cachedContent" ++
    (optField openaiPayload "tools" ++
    (optField openaiPayload "toolConfig" ++
    (("safetySettings", safetySettings) ::
    optField openaiPayload "generationConfig")))))
  { model := mapGet openaiPayload "model", request := request }

/-- The `if _, ok := m[k]; !ok { m[k] = v }` pattern used by
`BuildGeminiPayloadFromNative` to create missing nested config maps. -/
def ensureKey (m : List (String × Json)) (k : String) (v : Json) : List (String × Json) :=
  if (mapGet m k).isNone then mapSet m k v else m

/-- The thinking block of `BuildGeminiPayloadFromNative`, acting on the
(ensured) `thinkingConfig` map: outside the image-only models it always
sets `includeThoughts`, and sets `thinkingBudget` when that key is absent
or the model's budget is not the -1 default. -/
def applyThinking (thinkingConfig : List (String × Json)) (modelFromPath : String) :
    List (String × Json) :=
  if !goContains modelFromPath "gemini-2.5-flash-image" then
    let thinkingBudget := GetThinkingBudget modelFromPath
    let includeThoughts := ShouldIncludeThoughts modelFromPath
    let tc := mapSet thinkingConfig "includeThoughts" (Json.bool includeThoughts)
    if (mapGet tc "thinkingBudget").isNone || thinkingBudget ≠ -1 then
      mapSet tc "thinkingBudget" (Json.num (thinkingBudget : Rat))
    else tc
  else thinkingConfig

/-- The search block of `BuildGeminiPayloadFromNative`: for `-search`
models, create the `tools` slice when absent and append the
`googleSearch` tool unless one is already present; `none` models the Go
panic when a present `tools` value is not a slice. -/
def applySearch (request : List (String × Json)) (modelFromPath : String) :
    Option (List (String × Json)) :=
  if IsSearchModel modelFromPath then
    let request := ensureKey request "tools" (Json.arr [])
    match mapGet request "tools" with
    | some (Json.arr tools) =>
      let hasGoogleSearch := tools.any (fun t =>
        match t with
        | Json.obj tm => (mapGet tm "googleSearch").isSome
        | _ => false)
      if !hasGoogleSearch then
        some (mapSet request "tools"
          (Json.arr (tools ++ [Json.obj [("googleSearch", Json.obj [])]])))
      else some request
    | _ => none
  else some request

/-- `google.Client.BuildGeminiPayloadFromNative`.  Returns `none` exactly
when one of the Go type assertions
(`request["generationConfig"].(map[string]interface{})`,
`request["tools"].([]interface{})`) would panic because the caller
supplied a value of the wrong shape. -/
def BuildGeminiPayloadFromNative (nativeRequest : List (String × Json))
    (modelFromPath : String) : Option GeminiPayload :=
  let request := mapSet nativeRequest "safetySettings" getDefaultSafetySettings
  let request := ensureKey request "generationConfig" (Json.obj [])
  match mapGet request "generationConfig" with
  | some (Json.obj genConfig) =>
    let genConfig := ensureKey genConfig "thinkingConfig" (Json.obj [])
    match mapGet genConfig "thinkingConfig" with
    | some (Json.obj thinkingConfig) =>
      let genConfigFinal :=
        mapSet genConfig "thinkingConfig" (Json.obj (applyThinking thinkingConfig modelFromPath))
      let request := mapSet request "generationConfig" (Json.obj genConfigFinal)
      match applySearch request modelFromPath with
      | some r => some { model := some (Json.str (GetBaseModelName modelFromPath)), request := r }
      | none => none
    | _ => none
  | _ => none

/-- The unwrapping applied to a decoded chunk before re-serialisation:
the inner `response` map when that entry is an object, else the whole
object.

One line of `google.Client.StreamResponse`'s scan loop emits a frame
exactly for a line with the `data: ` marker whose payload is neither empty
nor `[DONE]` and which `parseChunk` decodes (`frameOfLine` below).
`decode` stands for `json.Unmarshal` into `map[string]interface{}`
(`parseChunk`) and `encode` for `json.Marshal`, which cannot fail on a
decoded map. -/
def unwrapChunk (obj : List (String × Json)) : Json :=
  match mapGet obj "response" with
  | some (Json.obj r) => Json.obj r
  | _ => Json.obj obj

/-- The decodable data event carried by one remote line, if any: the
payload of a `data: `-marked line, excluding empty and `[DONE]` payloads,
when `parseChunk` decodes it. -/
def lineEvent (decode : String → Option (List (String × Json)))
    (line : String) : Option (List (String × Json)) :=
  if goStartsWith line "data: " then
    let payload := String.mk (line.data.drop 6)
    if payload ≠ "" ∧ payload ≠ "[DONE]" then decode payload else none
  else none

def frameOfLine (decode : String → Option (List (String × Json)))
    (encode : Json → String) (line : String) : Option String :=
  if goStartsWith line "data: " then
    let payload := String.mk (line.data.drop 6)
    if payload ≠ "" ∧ payload ≠ "[DONE]" then
      match decode payload with
      | some obj => some ("data: " ++ encode (unwrapChunk obj) ++ "\n\n")
      | none => none
    else none
  else none

/-- `google.Client.StreamResponse` restricted to a cleanly exhausted
source: the outbound frames produced, in order, for the given remote
lines.  (On a read error the goroutine appends one synthetic error frame,
which is outside the clean-stream scope of the ordering property.) -/
def StreamResponse (decode : String → Option (List (String × Json)))
    (encode : Json → String) (lines : List String) : List String :=
  lines.filterMap (frameOfLine decode encode)

/-- The decodable data events of a remote line sequence: payloads of
`data: `-marked lines, excluding empty and `[DONE]` payloads, that
`parseChunk` decodes. -/
def decodedEvents (decode : String → Option (List (String × Json)))
    (lines : List String) : List (List (String × Json)) :=
  lines.filterMap (lineEvent decode)

/-! ## pkg/auth/auth.go: onboarding -/

/-- The fields of an `oauth2.Token` that `OnboardUser` touches.  `valid`
models `token.Valid()` (non-empty access token and unexpired). -/
structure GoToken where
  accessToken : String
  refreshToken : String
  valid : Bool
deriving DecidableEq

/-- The package-level mutable state guarded by `credentialsMux`. -/
structure AuthState where
  credentials : Option GoToken
  userProjectID : String
  onboardingDone : Bool
  credsFromEnv : Bool
deriving DecidableEq

/-- A network or file-system effect performed by the onboarding path. -/
inductive AuthEffect where
  | refreshCall
  | saveCredsFile
  | loadCodeAssistCall
  | onboardUserCall
deriving DecidableEq

/-- The environment a run of `OnboardUser` interacts with: the outcome of
a token refresh, of the `loadCodeAssist` probe (`none` for a failed call,
otherwise whether the response carries a `currentTier`), and the finite
trace of `onboardUser` poll responses observed (`none` for a failed call,
`some done` for a decoded long-running-operation status). -/
structure OnboardEnv where
  refreshResult : Option GoToken
  loadResult : Option Bool
  onboardResponses : List (Option Bool)

/-- Result of the `startOnboarding` poll loop over the observed response
trace.  The Go loop polls forever; a trace that ends before a `done`
response is modelled as still-failing (`false`) after the whole trace. -/
def startOnboardingLoop : List (Option Bool) → Bool × List AuthEffect
  | [] => (false, [])
  | resp :: rest =>
    match resp with
    | none => (false, [AuthEffect.onboardUserCall])
    | some true => (true, [AuthEffect.onboardUserCall])
    | some false =>
      let (ok, effects) := startOnboardingLoop rest
      (ok, AuthEffect.onboardUserCall :: effects)

/-- `auth.AuthConfig.OnboardUser`: returns the final shared state, the
possibly refreshed token, whether the call succeeded, and the effects
performed.  When the process-wide `onboardingDone` flag is already set it
returns success immediately with no effect and no state or token
change. -/
def OnboardUser (env : OnboardEnv) (s : AuthState) (token : GoToken)
    (_projectID : String) : AuthState × GoToken × Bool × List AuthEffect :=
  if s.onboardingDone then (s, token, true, [])
  else
    let (token, refreshOk, refreshEffects) :=
      if !token.valid && token.refreshToken ≠ "" then
        match env.refreshResult with
        | some newToken => (newToken, true, [AuthEffect.refreshCall, AuthEffect.saveCredsFile])
        | none => (token, false, [AuthEffect.refreshCall])
      else (token, true, [])
    if !refreshOk then (s, token, false, refreshEffects)
    else
      match env.loadResult with
      | none => (s, token, false, refreshEffects ++ [AuthEffect.loadCodeAssistCall])
      | some hasTier =>
        let s := if hasTier then { s with onboardingDone := true } else s
        let (onboardOk, onboardEffects) := startOnboardingLoop env.onboardResponses
        let effects := refreshEffects ++ AuthEffect.loadCodeAssistCall :: onboardEffects
        if !onboardOk then (s, token, false, effects)
        else ({ s with onboardingDone := true }, token, true, effects)

/-- An inbound chat-completion request with only the model set. -/
def plainRequest (model : String) : OpenAIRequest :=
  { model := model, messages := [], stream := false, temperature := none,
    topP := none, maxTokens := none, stop := none, frequencyPenalty := none,
    presencePenalty := none, n := none, seed := none, responseFormat := none }

/-! ## Helper lemmas -/

theorem mapGet_cons_ne (k : String) (v : Json) (rest : List (String × Json))
    (key : String) (h : k ≠ key) : mapGet ((k, v) :: rest) key = mapGet rest key := by
  simp [mapGet, h]

theorem mapGet_cons_self (k : String) (v : Json) (rest : List (String × Json)) :
    mapGet ((k, v) :: rest) k = some v := by
  simp [mapGet]

theorem mapGet_mapSet_self (m : List (String × Json)) (k : String) (v : Json) :
    mapGet (mapSet m k v) k = some v := by
  induction m with
  | nil => simp [mapSet, mapGet]
  | cons hd tl ih =>
    obtain ⟨k0, v0⟩ := hd
    by_cases h : k0 = k
    · simp [mapSet, mapGet, h]
    · simp [mapSet, mapGet, h, ih]

theorem mapGet_mapSet_ne (m : List (String × Json)) (k : String) (v : Json)
    (key : String) (h : k ≠ key) : mapGet (mapSet m k v) key = mapGet m key := by
  induction m with
  | nil => simp [mapSet, mapGet, h]
  | cons hd tl ih =>
    obtain ⟨k0, v0⟩ := hd
    by_cases h0 : k0 = k
    · subst h0
      simp [mapSet, mapGet, h]
    · by_cases h1 : k0 = key <;> simp [mapSet, mapGet, h0, h1, ih, Ne.symm h]

theorem addOpt_get_ne (gc : List (String × Json)) (k : String) (o : Option Json)
    (key : String) (h : k ≠ key) : mapGet (addOpt gc k o) key = mapGet gc key := by
  cases o with
  | none => rfl
  | some v => exact mapGet_mapSet_ne gc k v key h

theorem mapGet_append (l1 l2 : List (String × Json)) (key : String) :
    mapGet (l1 ++ l2) key =
      match mapGet l1 key with
      | some v => some v
      | none => mapGet l2 key := by
  induction l1 with
  | nil => simp [mapGet]
  | cons hd tl ih =>
    obtain ⟨k0, v0⟩ := hd
    by_cases h : k0 = key <;> simp [mapGet, h, ih]

theorem optField_get_ne (p : List (String × Json)) (k key : String) (h : k ≠ key) :
    mapGet (optField p k) key = none := by
  unfold optField
  cases mapGet p k <;> simp [mapGet, h]

theorem buildGenerationConfig_no_thinkingConfig (req : OpenAIRequest) :
    mapGet (buildGenerationConfig req) "thinkingConfig" = none := by
  unfold buildGenerationConfig
  rw [addOpt_get_ne _ _ _ _ (by decide), addOpt_get_ne _ _ _ _ (by decide),
    addOpt_get_ne _ _ _ _ (by decide), addOpt_get_ne _ _ _ _ (by decide),
    addOpt_get_ne _ _ _ _ (by decide), addOpt_get_ne _ _ _ _ (by decide),
    addOpt_get_ne _ _ _ _ (by decide), addOpt_get_ne _ _ _ _ (by decide),
    addOpt_get_ne _ _ _ _ (by decide)]
  rfl

theorem concatMap_eq_nil_of_forall {f : α → List β} {l : List α}
    (h : ∀ x ∈ l, f x = []) : concatMap f l = [] := by
  induction l with
  | nil => rfl
  | cons hd tl ih =>
    have hhd := h hd (List.mem_cons_self hd tl)
    simp [concatMap, hhd, ih (fun x hx => h x (List.mem_cons_of_mem hd hx))]

theorem processTextContent_ne_nil (s : String) : processTextContent s ≠ [] := by
  unfold processTextContent
  by_cases h : s = ""
  · simp [h]
  · rw [if_neg h]
    by_cases hm : (findMatches s.data).isEmpty = true
    · rw [if_pos hm]
      simp
    · rw [if_neg hm]
      by_cases hp : (buildParts s.data 0 (findMatches s.data)).isEmpty = true
      · rw [if_pos hp]
        simp
      · rw [if_neg hp]
        intro hnil
        exact hp (by rw [hnil]; rfl)

theorem processArrayContent_ne_nil (items : List Json) :
    processArrayContent items ≠ [] := by
  unfold processArrayContent
  by_cases hp : (concatMap itemParts items).isEmpty = true
  · rw [if_pos hp]
    simp
  · rw [if_neg hp]
    intro hnil
    exact hp (by rw [hnil]; rfl)

/-! ## Claim C5 -/

/-- C5 counterexample: `"gemini-2.5-flash-nothinking2"` ends in neither
`-nothinking` nor `-maxthinking`, yet its thinking budget is 0, not -1
(the budget test uses substring containment, not a suffix test). -/
theorem GetThinkingBudget_suffix_counterexample :
    goEndsWith "gemini-2.5-flash-nothinking2" "-nothinking" = false ∧
    goEndsWith "gemini-2.5-flash-nothinking2" "-maxthinking" = false ∧
    GetThinkingBudget "gemini-2.5-flash-nothinking2" = 0 := by
  refine ⟨by decide, by decide, by decide⟩

/-- C5 (amended): `GetThinkingBudget` returns the fixed table values
0 / 128 / 24576 / 32768 for the four named thinking variants, and -1 for
every model name that does not *contain* `-nothinking` or `-maxthinking`
(containment, not a suffix test, is what the code checks). -/
theorem GetThinkingBudget_table (m : String)
    (h1 : goContains m "-nothinking" = false)
    (h2 : goContains m "-maxthinking" = false) :
    GetThinkingBudget "gemini-2.5-flash-nothinking" = 0 ∧
    GetThinkingBudget "gemini-2.5-pro-nothinking" = 128 ∧
    GetThinkingBudget "gemini-2.5-flash-maxthinking" = 24576 ∧
    GetThinkingBudget "gemini-2.5-pro-maxthinking" = 32768 ∧
    GetThinkingBudget m = -1 := by
  refine ⟨by decide, by decide, by decide, by decide, ?_⟩
  unfold GetThinkingBudget IsNothinkingModel IsMaxthinkingModel
  simp [h1, h2]

/-- C5 witness: the table theorem applied at `"gemini-1.5-pro"`. -/
theorem GetThinkingBudget_table_witness :
    GetThinkingBudget "gemini-1.5-pro" = -1 :=
  (GetThinkingBudget_table "gemini-1.5-pro" (by decide) (by decide)).2.2.2.2

/-! ## Claim C7 -/

/-- C7: `mapFinishReason` maps STOP to stop, MAX_TOKENS to length,
SAFETY and RECITATION to content_filter, and leaves every other string,
every non-string value, and an absent value unset. -/
theorem mapFinishReason_table :
    mapFinishReason (some (Json.str "STOP")) = some "stop" ∧
    mapFinishReason (some (Json.str "MAX_TOKENS")) = some "length" ∧
    mapFinishReason (some (Json.str "SAFETY")) = some "content_filter" ∧
    mapFinishReason (some (Json.str "RECITATION")) = some "content_filter" ∧
    (∀ s : String, s ≠ "STOP" → s ≠ "MAX_TOKENS" → s ≠ "SAFETY" → s ≠ "RECITATION" →
      mapFinishReason (some (Json.str s)) = none) ∧
    (∀ j : Json, (∀ s : String, j ≠ Json.str s) → mapFinishReason (some j) = none) ∧
    mapFinishReason none = none := by
  refine ⟨rfl, rfl, rfl, rfl, ?_, ?_, rfl⟩
  · intro s h1 h2 h3 h4
    simp [mapFinishReason, h1, h2, h3, h4]
  · intro j hj
    cases j with
    | str s => exact absurd rfl (hj s)
    | null => rfl
    | bool b => rfl
    | num q => rfl
    | arr l => rfl
    | obj l => rfl

/-- C7 witness: the table theorem applied at the unrecognised string
`"OTHER"` and the non-string value `3`. -/
theorem mapFinishReason_table_witness :
    mapFinishReason (some (Json.str "OTHER")) = none ∧
    mapFinishReason (some (Json.num 3)) = none :=
  ⟨mapFinishReason_table.2.2.2.2.1 "OTHER" (by decide) (by decide) (by decide) (by decide),
   mapFinishReason_table.2.2.2.2.2.1 (Json.num 3) (fun _ h => Json.noConfusion h)⟩

/-! ## Claim C9 -/

/-- C9: `OnboardUser` is idempotent per process: when the process-wide
onboarded flag is set, it returns success immediately, performing no
remote call or file write and changing neither the shared state nor the
token. -/
theorem OnboardUser_idempotent (env : OnboardEnv) (s : AuthState)
    (token : GoToken) (projectID : String) (h : s.onboardingDone = true) :
    OnboardUser env s token projectID = (s, token, true, []) := by
  simp [OnboardUser, h]

/-- C9 witness: the idempotence theorem applied at a concrete onboarded
state. -/
theorem OnboardUser_idempotent_witness :
    OnboardUser ⟨none, some true, []⟩ ⟨none, "proj", true, false⟩
      ⟨"a", "r", true⟩ "proj" = (⟨none, "proj", true, false⟩, ⟨"a", "r", true⟩, true, []) :=
  OnboardUser_idempotent _ _ _ _ rfl

/-! ## Claim C10 -/

/-- C10: the translator never produces an empty part list for an accepted
content value; an empty string, and an array none of whose entries
contributes a part, each yield exactly one empty text part. -/
theorem processContent_nonempty :
    (∀ (c : Json) (parts : List Json), processContent c = Except.ok parts → parts ≠ []) ∧
    processContent (Json.str "") = Except.ok [Json.obj [("text", Json.str "")]] ∧
    (∀ items : List Json, (∀ j ∈ items, itemParts j = []) →
      processContent (Json.arr items) = Except.ok [Json.obj [("text", Json.str "")]]) := by
  refine ⟨?_, rfl, ?_⟩
  · intro c parts h
    cases c with
    | str s =>
      obtain rfl : processTextContent s = parts := by
        simpa [processContent] using h
      exact processTextContent_ne_nil s
    | arr items =>
      obtain rfl : processArrayContent items = parts := by
        simpa [processContent] using h
      exact processArrayContent_ne_nil items
    | null => exact absurd h (by simp [processContent])
    | bool b => exact absurd h (by simp [processContent])
    | num q => exact absurd h (by simp [processContent])
    | obj fields => exact absurd h (by simp [processContent])
  · intro items hall
    have hnil : concatMap itemParts items = [] := concatMap_eq_nil_of_forall hall
    simp [processContent, processArrayContent, hnil]

/-- C10 witness: the non-emptiness theorem applied to a concrete string
content, and the empty-part case applied to an array whose single entry
is unrecognised. -/
theorem processContent_nonempty_witness :
    ([Json.obj [("text", Json.str "hi")]] : List Json) ≠ [] ∧
    processContent (Json.arr [Json.num 1]) = Except.ok [Json.obj [("text", Json.str "")]] :=
  ⟨processContent_nonempty.1 (Json.str "hi") [Json.obj [("text", Json.str "hi")]] rfl,
   processContent_nonempty.2.2 [Json.num 1]
     (fun j hj => by
       rw [List.mem_singleton] at hj
       subst hj
       rfl)⟩

theorem mapGet_optField_append (p : List (String × Json)) (k : String)
    (rest : List (String × Json)) (key : String) (h : k ≠ key) :
    mapGet (optField p k ++ rest) key = mapGet rest key := by
  rw [mapGet_append, optField_get_ne p k key h]

theorem ensureKey_get_ne (m : List (String × Json)) (k : String) (v : Json)
    (key : String) (h : k ≠ key) : mapGet (ensureKey m k v) key = mapGet m key := by
  unfold ensureKey
  split
  · exact mapGet_mapSet_ne m k v key h
  · rfl

theorem applySearch_get_ne (request : List (String × Json)) (model : String)
    (r : List (String × Json)) (key : String) (h1 : applySearch request model = some r)
    (h2 : ("tools" : String) ≠ key) : mapGet r key = mapGet request key := by
  simp only [applySearch] at h1
  by_cases hs : IsSearchModel model = true
  · rw [if_pos hs] at h1
    split at h1
    · split at h1
      · simp only [Option.some.injEq] at h1
        subst h1
        rw [mapGet_mapSet_ne _ _ _ _ h2]
        exact ensureKey_get_ne _ _ _ _ h2
      · simp only [Option.some.injEq] at h1
        subst h1
        exact ensureKey_get_ne _ _ _ _ h2
    · exact absurd h1 (by simp)
  · rw [if_neg hs] at h1
    simp only [Option.some.injEq] at h1
    subst h1
    rfl

/-! ## Claim C1 -/

/-- C1 counterexample: the catalog generated by `generateSupportedModels`
contains the combined variant `models/gemini-2.5-flash-search-nothinking`,
but `GetBaseModelName` strips only its final suffix and returns
`models/gemini-2.5-flash-search`, not the base name
`models/gemini-2.5-flash`. -/
theorem GetBaseModelName_combined_counterexample :
    "models/gemini-2.5-flash-search-nothinking" ∈ generateSupportedModels.map Model.name ∧
    GetBaseModelName "models/gemini-2.5-flash-search-nothinking" =
      "models/gemini-2.5-flash-search" ∧
    "models/gemini-2.5-flash-search" ≠ "models/gemini-2.5-flash" := by
  refine ⟨by decide, by decide, by decide⟩

/-- C1 (amended): base-name extraction exactly reverses variant-name
derivation for every single-flag variant of a catalog base model; for the
combined search+thinking variants a single application strips only the
final thinking suffix, yielding the base's `-search` variant name, and
applying the extraction twice reaches a catalog base name from every
generated model name. -/
theorem GetBaseModelName_roundtrip (b n : String)
    (hb : b ∈ getBaseModels.map Model.name)
    (hn : n ∈ generateSupportedModels.map Model.name) :
    GetBaseModelName b = b ∧
    GetBaseModelName (b ++ "-search") = b ∧
    GetBaseModelName (b ++ "-nothinking") = b ∧
    GetBaseModelName (b ++ "-maxthinking") = b ∧
    GetBaseModelName (b ++ "-search-nothinking") = b ++ "-search" ∧
    GetBaseModelName (b ++ "-search-maxthinking") = b ++ "-search" ∧
    GetBaseModelName (GetBaseModelName n) ∈ getBaseModels.map Model.name := by
  have h1 : ∀ b ∈ getBaseModels.map Model.name,
      GetBaseModelName b = b ∧
      GetBaseModelName (b ++ "-search") = b ∧
      GetBaseModelName (b ++ "-nothinking") = b ∧
      GetBaseModelName (b ++ "-maxthinking") = b ∧
      GetBaseModelName (b ++ "-search-nothinking") = b ++ "-search" ∧
      GetBaseModelName (b ++ "-search-maxthinking") = b ++ "-search" := by decide
  have h2 : ∀ n ∈ generateSupportedModels.map Model.name,
      GetBaseModelName (GetBaseModelName n) ∈ getBaseModels.map Model.name := by decide
  obtain ⟨p1, p2, p3, p4, p5, p6⟩ := h1 b hb
  exact ⟨p1, p2, p3, p4, p5, p6, h2 n hn⟩

/-- C1 witness: the round-trip theorem applied at the base model
`models/gemini-2.5-pro` and the generated combined variant
`models/gemini-2.5-flash-search-nothinking`. -/
theorem GetBaseModelName_roundtrip_witness :
    GetBaseModelName ("models/gemini-2.5-pro" ++ "-search") = "models/gemini-2.5-pro" ∧
    GetBaseModelName (GetBaseModelName "models/gemini-2.5-flash-search-nothinking") ∈
      getBaseModels.map Model.name :=
  ⟨(GetBaseModelName_roundtrip "models/gemini-2.5-pro"
      "models/gemini-2.5-flash-search-nothinking" (by decide) (by decide)).2.1,
   (GetBaseModelName_roundtrip "models/gemini-2.5-pro"
      "models/gemini-2.5-flash-search-nothinking" (by decide) (by decide)).2.2.2.2.2.2⟩

/-! ## Claim C3 -/

/-- C3: evaluation at the failing input.  An inbound JSON `stop` list such
as `["a"]` is decoded by `encoding/json` into `[]interface{}`, which
matches neither case of the Go type switch, so the remote payload carries
no `stopSequences` at all (first two conjuncts); a JSON `stop` string is
mapped to a one-element list (third conjunct); and the `[]string` case the
switch was written for would have passed a list through unchanged, but no
JSON-decoded value ever has that type (fourth conjunct). -/
theorem stop_list_dropped_failing_input :
    OpenAIRequestToGemini
        { plainRequest "gemini-2.5-pro" with stop := some (decodeStop (Json.arr [Json.str "a"])) } =
      Except.ok
        [ ("contents", Json.arr [])
        , ("generationConfig", Json.obj [])
        , ("safetySettings", getDefaultSafetySettings)
        , ("model", Json.str "gemini-2.5-pro") ] ∧
    mapGet (buildGenerationConfig
        { plainRequest "gemini-2.5-pro" with stop := some (decodeStop (Json.arr [Json.str "a"])) })
      "stopSequences" = none ∧
    mapGet (buildGenerationConfig
        { plainRequest "gemini-2.5-pro" with stop := some (decodeStop (Json.str "a")) })
      "stopSequences" = some (Json.arr [Json.str "a"]) ∧
    mapGet (buildGenerationConfig
        { plainRequest "gemini-2.5-pro" with stop := some (GoStop.strSlice ["a", "b"]) })
      "stopSequences" = some (Json.arr [Json.str "a", Json.str "b"]) :=
  ⟨rfl, rfl, rfl, rfl⟩

/-! ## Claim C2 -/

/-- C2 counterexample: on the native path a caller-supplied
`safetySettings` table is *not* preserved — `BuildGeminiPayloadFromNative`
unconditionally replaces it with the fixed ten-category BLOCK_NONE
table. -/
theorem native_safety_override_counterexample :
    (BuildGeminiPayloadFromNative
        [("safetySettings", Json.arr [Json.obj
          [("category", Json.str "HARM_CATEGORY_HARASSMENT"), ("threshold", Json.str "BLOCK_ONLY_HIGH")]])]
        "models/gemini-2.5-pro").map (fun p => mapGet p.request "safetySettings") =
      some (some getDefaultSafetySettings) ∧
    getDefaultSafetySettings ≠
      Json.arr [Json.obj
        [("category", Json.str "HARM_CATEGORY_HARASSMENT"), ("threshold", Json.str "BLOCK_ONLY_HIGH")]] := by
  constructor
  · rfl
  · intro h
    simp [getDefaultSafetySettings] at h

/-- The `safetySettings` entry of the request wrapped by
`BuildGeminiPayloadFromOpenAI`: the caller's value when it passes the
slice-of-maps type assertion, the config default otherwise. -/
theorem fromOpenAI_safety_get (p : List (String × Json)) :
    mapGet (BuildGeminiPayloadFromOpenAI p).request "safetySettings" =
      some (match mapGet p "safetySettings" with
        | some ss => if isSliceOfMaps ss then ss else getDefaultSafetySettings
        | none => getDefaultSafetySettings) := by
  simp only [BuildGeminiPayloadFromOpenAI]
  rw [mapGet_optField_append _ _ _ _ (by decide), mapGet_optField_append _ _ _ _ (by decide),
    mapGet_optField_append _ _ _ _ (by decide), mapGet_optField_append _ _ _ _ (by decide),
    mapGet_optField_append _ _ _ _ (by decide), mapGet_cons_self]

/-- C2 (amended): every remote payload carries exactly the fixed
ten-category BLOCK_NONE safety table — on the OpenAI path the translator
always writes the fixed table (and the wrapper keeps it), and on the
native path a caller-supplied table is *replaced* by the fixed table
rather than preserved. -/
theorem safetySettings_always_default :
    (∀ (req : OpenAIRequest) (payload : List (String × Json)),
      OpenAIRequestToGemini req = Except.ok payload →
      mapGet payload "safetySettings" = some getDefaultSafetySettings ∧
      mapGet (BuildGeminiPayloadFromOpenAI payload).request "safetySettings" =
        some getDefaultSafetySettings) ∧
    (∀ (native : List (String × Json)) (model : String) (out : GeminiPayload),
      BuildGeminiPayloadFromNative native model = some out →
      mapGet out.request "safetySettings" = some getDefaultSafetySettings) := by
  constructor
  · intro req payload h
    have hget : mapGet payload "safetySettings" = some getDefaultSafetySettings := by
      unfold OpenAIRequestToGemini at h
      cases hb : buildContents req.messages with
      | error e => rw [hb] at h; exact absurd h (by simp)
      | ok contents =>
        rw [hb] at h
        simp only [Except.ok.injEq] at h
        subst h
        by_cases hs : IsSearchModel req.model = true
        · rw [if_pos hs, mapGet_mapSet_ne _ _ _ _ (by decide),
            mapGet_cons_ne _ _ _ _ (by decide), mapGet_cons_ne _ _ _ _ (by decide),
            mapGet_cons_self]
        · rw [if_neg hs, mapGet_cons_ne _ _ _ _ (by decide),
            mapGet_cons_ne _ _ _ _ (by decide), mapGet_cons_self]
    refine ⟨hget, ?_⟩
    rw [fromOpenAI_safety_get, hget]
    rfl
  · intro native model out h
    simp only [BuildGeminiPayloadFromNative] at h
    split at h
    · split at h
      · split at h
        · rename_i r heq
          simp only [Option.some.injEq] at h
          subst h
          show mapGet r "safetySettings" = some getDefaultSafetySettings
          rw [applySearch_get_ne _ _ _ _ heq (by decide),
            mapGet_mapSet_ne _ _ _ _ (by decide),
            ensureKey_get_ne _ _ _ _ (by decide)]
          exact mapGet_mapSet_self _ _ _
        · exact absurd h (by simp)
      · exact absurd h (by simp)
    · exact absurd h (by simp)


/-- C2 witness: the safety-table theorem applied to the translated empty
request for model `m` and to the native request `{}` for model `m`. -/
theorem safetySettings_always_default_witness :
    mapGet
      [ ("contents", Json.arr [])
      , ("generationConfig", Json.obj [])
      , ("safetySettings", getDefaultSafetySettings)
      , ("model", Json.str "m") ] "safetySettings" = some getDefaultSafetySettings ∧
    mapGet
      [ ("safetySettings", getDefaultSafetySettings)
      , ("generationConfig", Json.obj [("thinkingConfig", Json.obj
          [("includeThoughts", Json.bool true), ("thinkingBudget", Json.num (-1))])]) ]
      "safetySettings" = some getDefaultSafetySettings :=
  ⟨(safetySettings_always_default.1 (plainRequest "m")
      [ ("contents", Json.arr [])
      , ("generationConfig", Json.obj [])
      , ("safetySettings", getDefaultSafetySettings)
      , ("model", Json.str "m") ] rfl).1,
   safetySettings_always_default.2 [] "m"
     { model := some (Json.str "m")
     , request :=
        [ ("safetySettings", getDefaultSafetySettings)
        , ("generationConfig", Json.obj [("thinkingConfig", Json.obj
            [("includeThoughts", Json.bool true), ("thinkingBudget", Json.num (-1))])]) ] }
     rfl⟩

/-! ## Claim C4 -/

theorem applyThinking_image (tc : List (String × Json)) (model : String)
    (h : goContains model "gemini-2.5-flash-image" = true) :
    applyThinking tc model = tc := by
  unfold applyThinking
  rw [if_neg (by simp [h])]

theorem applyThinking_nil_notImage (model : String)
    (h : goContains model "gemini-2.5-flash-image" = false) :
    applyThinking [] model =
      [ ("includeThoughts", Json.bool (ShouldIncludeThoughts model))
      , ("thinkingBudget", Json.num (GetThinkingBudget model : Rat)) ] := by
  unfold applyThinking
  rw [if_pos (by simp [h])]
  rfl

/-- When the caller supplied no `generationConfig`, the native builder
emits exactly the freshly created one: an (initially empty)
`thinkingConfig` transformed by the thinking block. -/
theorem native_genConfig_of_absent (native : List (String × Json)) (model : String)
    (out : GeminiPayload) (hg : mapGet native "generationConfig" = none)
    (h : BuildGeminiPayloadFromNative native model = some out) :
    mapGet out.request "generationConfig" =
      some (Json.obj [("thinkingConfig", Json.obj (applyThinking [] model))]) := by
  have hr1 : mapGet (mapSet native "safetySettings" getDefaultSafetySettings)
      "generationConfig" = none := by
    rw [mapGet_mapSet_ne _ _ _ _ (by decide)]
    exact hg
  have hr2 : mapGet (ensureKey (mapSet native "safetySettings" getDefaultSafetySettings)
      "generationConfig" (Json.obj [])) "generationConfig" = some (Json.obj []) := by
    unfold ensureKey
    rw [if_pos (by simp [hr1])]
    exact mapGet_mapSet_self _ _ _
  simp only [BuildGeminiPayloadFromNative] at h
  split at h
  · rename_i genConfig heqG
    rw [hr2] at heqG
    have hgc : genConfig = [] := by
      simpa using heqG.symm
    subst hgc
    split at h
    · rename_i thinkingConfig heqT
      have htc : thinkingConfig = [] := by
        simpa [ensureKey, mapGet, mapSet] using heqT.symm
      subst htc
      split at h
      · rename_i r heq
        simp only [Option.some.injEq] at h
        subst h
        show mapGet r "generationConfig" = _
        rw [applySearch_get_ne _ _ _ _ heq (by decide), mapGet_mapSet_self]
        rfl
      · exact absurd h (by simp)
    · exact absurd h (by simp)
  · exact absurd h (by simp)

/-- C4 counterexample: on the native path the image-only model *does*
get a thinking configuration object introduced — an empty
`thinkingConfig` is created inside the (also created) `generationConfig`
even though neither field of it is set. -/
theorem native_image_thinkingConfig_counterexample :
    goContains "models/gemini-2.5-flash-image-preview" "gemini-2.5-flash-image" = true ∧
    (BuildGeminiPayloadFromNative [] "models/gemini-2.5-flash-image-preview").map
        (fun p => mapGet p.request "generationConfig") =
      some (some (Json.obj [("thinkingConfig", Json.obj [])])) :=
  ⟨rfl, rfl⟩

/-- C4 (amended): on the OpenAI path an image-only target model gets no
`thinkingConfig` key at all; on the native path an (empty) `thinkingConfig`
object is always created for image-only models but neither of its fields
is set; and for every non-image model whose thinking budget is not the -1
default (on the OpenAI path), or any non-image model (on the native path
with no caller `generationConfig`), both `thinkingBudget` and
`includeThoughts` are set on the generation config. -/
theorem thinkingConfig_policy :
    (∀ (req : OpenAIRequest) (payload : List (String × Json)),
      OpenAIRequestToGemini req = Except.ok payload →
      goContains req.model "gemini-2.5-flash-image" = true →
      mapGet payload "generationConfig" = some (Json.obj (buildGenerationConfig req)) ∧
      mapGet (buildGenerationConfig req) "thinkingConfig" = none) ∧
    (∀ (req : OpenAIRequest) (payload : List (String × Json)),
      OpenAIRequestToGemini req = Except.ok payload →
      goContains req.model "gemini-2.5-flash-image" = false →
      GetThinkingBudget req.model ≠ -1 →
      mapGet payload "generationConfig" = some (Json.obj
        (mapSet (buildGenerationConfig req) "thinkingConfig" (Json.obj
          [ ("thinkingBudget", Json.num (GetThinkingBudget req.model : Rat))
          , ("includeThoughts", Json.bool (ShouldIncludeThoughts req.model)) ])))) ∧
    (∀ (native : List (String × Json)) (model : String) (out : GeminiPayload),
      goContains model "gemini-2.5-flash-image" = true →
      mapGet native "generationConfig" = none →
      BuildGeminiPayloadFromNative native model = some out →
      mapGet out.request "generationConfig" =
        some (Json.obj [("thinkingConfig", Json.obj [])])) ∧
    (∀ (native : List (String × Json)) (model : String) (out : GeminiPayload),
      goContains model "gemini-2.5-flash-image" = false →
      mapGet native "generationConfig" = none →
      BuildGeminiPayloadFromNative native model = some out →
      mapGet out.request "generationConfig" = some (Json.obj [("thinkingConfig", Json.obj
        [ ("includeThoughts", Json.bool (ShouldIncludeThoughts model))
        , ("thinkingBudget", Json.num (GetThinkingBudget model : Rat)) ])])) := by
  refine ⟨?_, ?_, ?_, ?_⟩
  · intro req payload h himg
    refine ⟨?_, buildGenerationConfig_no_thinkingConfig req⟩
    unfold OpenAIRequestToGemini at h
    cases hb : buildContents req.messages with
    | error e => rw [hb] at h; exact absurd h (by simp)
    | ok contents =>
      rw [hb] at h
      simp only [Except.ok.injEq] at h
      subst h
      rw [if_neg (c := (!goContains req.model "gemini-2.5-flash-image") = true) (by simp [himg])]
      by_cases hs : IsSearchModel req.model = true
      · rw [if_pos hs, mapGet_mapSet_ne _ _ _ _ (by decide),
          mapGet_cons_ne _ _ _ _ (by decide), mapGet_cons_self]
      · rw [if_neg hs, mapGet_cons_ne _ _ _ _ (by decide), mapGet_cons_self]
  · intro req payload h himg hbud
    unfold OpenAIRequestToGemini at h
    cases hb : buildContents req.messages with
    | error e => rw [hb] at h; exact absurd h (by simp)
    | ok contents =>
      rw [hb] at h
      simp only [Except.ok.injEq] at h
      subst h
      rw [if_pos (c := (!goContains req.model "gemini-2.5-flash-image") = true) (by simp [himg]),
        if_pos hbud]
      simp only [buildGenerationConfig_no_thinkingConfig]
      by_cases hs : IsSearchModel req.model = true
      · rw [if_pos hs, mapGet_mapSet_ne _ _ _ _ (by decide),
          mapGet_cons_ne _ _ _ _ (by decide), mapGet_cons_self]
        rfl
      · rw [if_neg hs, mapGet_cons_ne _ _ _ _ (by decide), mapGet_cons_self]
        rfl
  · intro native model out himg hg h
    rw [native_genConfig_of_absent native model out hg h, applyThinking_image [] model himg]
  · intro native model out himg hg h
    rw [native_genConfig_of_absent native model out hg h, applyThinking_nil_notImage model himg]

/-- C4 witness: the policy theorem applied at the image model (both
paths) and at the thinking variants `gemini-2.5-flash-nothinking`
(OpenAI path) and `gemini-2.5-pro-maxthinking` (native path). -/
theorem thinkingConfig_policy_witness :
    mapGet
      [ ("contents", Json.arr [])
      , ("generationConfig", Json.obj [])
      , ("safetySettings", getDefaultSafetySettings)
      , ("model", Json.str "gemini-2.5-flash-image-preview") ] "generationConfig" =
        some (Json.obj (buildGenerationConfig (plainRequest "gemini-2.5-flash-image-preview"))) ∧
    mapGet
      [ ("contents", Json.arr [])
      , ("generationConfig", Json.obj [("thinkingConfig", Json.obj
          [("thinkingBudget", Json.num 0), ("includeThoughts", Json.bool false)])])
      , ("safetySettings", getDefaultSafetySettings)
      , ("model", Json.str "gemini-2.5-flash") ] "generationConfig" =
        some (Json.obj
          (mapSet (buildGenerationConfig (plainRequest "gemini-2.5-flash-nothinking"))
            "thinkingConfig" (Json.obj
              [ ("thinkingBudget", Json.num
                  (GetThinkingBudget "gemini-2.5-flash-nothinking" : Rat))
              , ("includeThoughts", Json.bool
                  (ShouldIncludeThoughts "gemini-2.5-flash-nothinking")) ]))) ∧
    mapGet
      [ ("safetySettings", getDefaultSafetySettings)
      , ("generationConfig", Json.obj [("thinkingConfig", Json.obj [])]) ]
      "generationConfig" = some (Json.obj [("thinkingConfig", Json.obj [])]) ∧
    mapGet
      [ ("safetySettings", getDefaultSafetySettings)
      , ("generationConfig", Json.obj [("thinkingConfig", Json.obj
          [ ("includeThoughts", Json.bool true), ("thinkingBudget", Json.num 32768) ])]) ]
      "generationConfig" = some (Json.obj [("thinkingConfig", Json.obj
        [ ("includeThoughts", Json.bool (ShouldIncludeThoughts "gemini-2.5-pro-maxthinking"))
        , ("thinkingBudget", Json.num
            (GetThinkingBudget "gemini-2.5-pro-maxthinking" : Rat)) ])]) :=
  ⟨(thinkingConfig_policy.1 (plainRequest "gemini-2.5-flash-image-preview")
      [ ("contents", Json.arr [])
      , ("generationConfig", Json.obj [])
      , ("safetySettings", getDefaultSafetySettings)
      , ("model", Json.str "gemini-2.5-flash-image-preview") ] rfl rfl).1,
   thinkingConfig_policy.2.1 (plainRequest "gemini-2.5-flash-nothinking")
      [ ("contents", Json.arr [])
      , ("generationConfig", Json.obj [("thinkingConfig", Json.obj
          [("thinkingBudget", Json.num 0), ("includeThoughts", Json.bool false)])])
      , ("safetySettings", getDefaultSafetySettings)
      , ("model", Json.str "gemini-2.5-flash") ] rfl rfl (by decide),
   thinkingConfig_policy.2.2.1 [] "models/gemini-2.5-flash-image-preview"
     { model := some (Json.str "models/gemini-2.5-flash-image-preview")
     , request :=
        [ ("safetySettings", getDefaultSafetySettings)
        , ("generationConfig", Json.obj [("thinkingConfig", Json.obj [])]) ] }
     rfl rfl rfl,
   thinkingConfig_policy.2.2.2 [] "gemini-2.5-pro-maxthinking"
     { model := some (Json.str "gemini-2.5-pro")
     , request :=
        [ ("safetySettings", getDefaultSafetySettings)
        , ("generationConfig", Json.obj [("thinkingConfig", Json.obj
            [ ("includeThoughts", Json.bool true), ("thinkingBudget", Json.num 32768) ])]) ] }
     rfl rfl rfl⟩

/-! ## Claim C8 -/

theorem frameOfLine_eq (decode : String → Option (List (String × Json)))
    (encode : Json → String) (line : String) :
    frameOfLine decode encode line =
      (lineEvent decode line).map
        (fun obj => "data: " ++ encode (unwrapChunk obj) ++ "\n\n") := by
  simp only [frameOfLine, lineEvent]
  split
  · split
    · cases decode (String.mk (line.data.drop 6)) <;> rfl
    · rfl
  · rfl

/-- C8: the relay emits exactly one outbound frame per decodable
data-prefixed event, in input order — the outbound sequence is the map of
the re-framing function over the decodable events, so counts agree and
keep-alive, `[DONE]`, empty and non-data lines produce nothing. -/
theorem StreamResponse_order_and_count (decode : String → Option (List (String × Json)))
    (encode : Json → String) (lines : List String) :
    StreamResponse decode encode lines =
      (decodedEvents decode lines).map
        (fun obj => "data: " ++ encode (unwrapChunk obj) ++ "\n\n") ∧
    (StreamResponse decode encode lines).length =
      (decodedEvents decode lines).length := by
  have hmain : StreamResponse decode encode lines =
      (decodedEvents decode lines).map
        (fun obj => "data: " ++ encode (unwrapChunk obj) ++ "\n\n") := by
    induction lines with
    | nil => rfl
    | cons l ls ih =>
      simp only [StreamResponse, decodedEvents, List.filterMap_cons] at ih ⊢
      rw [frameOfLine_eq]
      cases hv : lineEvent decode l with
      | none => simpa using ih
      | some obj => simpa using ih
  exact ⟨hmain, by rw [hmain, List.length_map]⟩

/-! ## Claim C6 -/

theorem matchPart_mem_buildParts (l : List Char) (m : MdMatch) :
    ∀ (ms : List MdMatch) (lastIdx : Nat), m ∈ ms →
      matchPart l m ∈ buildParts l lastIdx ms := by
  intro ms
  induction ms with
  | nil => intro lastIdx h; cases h
  | cons m0 rest ih =>
    intro lastIdx h
    simp only [buildParts]
    rcases List.mem_cons.mp h with rfl | hmem
    · exact List.mem_append_right _ (List.mem_cons_self _ _)
    · exact List.mem_append_right _ (List.mem_cons_of_mem _ (ih _ hmem))

/-- C6: decomposing `"A ![x](data:image/png;base64,QQ==) B"` yields
exactly the three ordered parts Text `"A "`, InlineBinary
`("image/png", "QQ==")`, Text `" B"`; and every markdown image reference
whose (cleaned) URL is not a data URI is emitted as a literal text part
holding the matched reference, which appears in the output. -/
theorem processTextContent_image_extraction :
    processTextContent "A ![x](data:image/png;base64,QQ==) B" =
      [ Json.obj [("text", Json.str "A ")]
      , Json.obj [("inlineData", Json.obj
          [("mimeType", Json.str "image/png"), ("data", Json.str "QQ==")])]
      , Json.obj [("text", Json.str " B")] ] ∧
    (∀ (s : String) (m : MdMatch), m ∈ findMatches s.data →
      goStartsWith (String.mk (cleanUrl s.data m)) "data:" = false →
      matchPart s.data m =
        Json.obj [("text", Json.str (String.mk (sliceL s.data m.mstart m.mend)))] ∧
      matchPart s.data m ∈ processTextContent s) := by
  constructor
  · rfl
  · intro s m hm hurl
    have hnone : processImageURL (String.mk (cleanUrl s.data m)) = none := by
      unfold processImageURL
      rw [if_pos (by simp [hurl])]
    have hpart : matchPart s.data m =
        Json.obj [("text", Json.str (String.mk (sliceL s.data m.mstart m.mend)))] := by
      unfold matchPart
      rw [hnone]
    refine ⟨hpart, ?_⟩
    have hs : s ≠ "" := by
      intro h0
      subst h0
      have hemp : findMatches (("" : String)).data = [] := rfl
      rw [hemp] at hm
      cases hm
    have hmem : matchPart s.data m ∈ buildParts s.data 0 (findMatches s.data) :=
      matchPart_mem_buildParts s.data m (findMatches s.data) 0 hm
    simp only [processTextContent]
    rw [if_neg hs]
    have hmsne : (findMatches s.data).isEmpty = false := by
      cases hfm : findMatches s.data with
      | nil => rw [hfm] at hm; cases hm
      | cons a b => rfl
    rw [if_neg (by simp [hmsne])]
    cases hbp : buildParts s.data 0 (findMatches s.data) with
    | nil => rw [hbp] at hmem; cases hmem
    | cons a b =>
      rw [if_neg (by simp)]
      rw [hbp] at hmem
      exact hmem

/-- C6 witness: the extraction theorem applied to a reference whose URL
is not a data URI. -/
theorem processTextContent_image_extraction_witness :
    matchPart ("see ![pic](http://example.com/a.png) here").data ⟨4, 36, 11, 35⟩ =
      Json.obj [("text", Json.str "![pic](http://example.com/a.png)")] ∧
    matchPart ("see ![pic](http://example.com/a.png) here").data ⟨4, 36, 11, 35⟩ ∈
      processTextContent "see ![pic](http://example.com/a.png) here" :=
  processTextContent_image_extraction.2 "see ![pic](http://example.com/a.png) here"
    ⟨4, 36, 11, 35⟩ (by decide) (by decide)

end GeminiProxy
